import Mathlib

/-!
Verification of the basket subscription-state reconciliation engine.

The definitions below are a shallow embedding of the repository's Python
code.  Python strings are modelled as Lean `String`s (with list-of-char
helpers for the operations the code uses), Python dicts that collect the
fields of one remote write are modelled as association lists keyed by a
structured `FieldKey`, and the remote email platform (the three
partitions of subscriber records plus the observable behaviour of
`add_record` / `trigger_send`) is modelled as explicit state passed to
the functions that consume it.

Two generations of the task module exist in the repository.  The module
`news/tasks.py` that the test-suite `news/tests/test_update_user.py`
imports is not among the source files (only its tests and its callers in
`news/views.py` are), so the parts of it that claims need are modelled
from the specification and are marked `Modelled from the spec:` in their
doc comments.  The older generation `apps/news/tasks.py` is present and
is embedded directly where a claim is decided by it.
-/

/-! ## String helpers (Python string operations used by the code) -/

/-- Characters Python's `str.strip()` removes by default. -/
def isPySpace (c : Char) : Bool :=
  c = ' ' ∨ c = '\t' ∨ c = '\n' ∨ c = '\r' ∨ c = '\x0b' ∨ c = '\x0c'

/-- Python `s.strip()` on a list of characters. -/
def trimChars (l : List Char) : List Char :=
  ((l.dropWhile isPySpace).reverse.dropWhile isPySpace).reverse

/-- Helper for `splitComma`: accumulates the current chunk (reversed). -/
def splitCommaAux : List Char → List Char → List (List Char)
  | [], acc => [acc.reverse]
  | c :: rest, acc =>
    if c = ',' then acc.reverse :: splitCommaAux rest [] else splitCommaAux rest (c :: acc)

/-- Python `s.split(',')`. -/
def splitComma (s : String) : List String :=
  (splitCommaAux s.data []).map fun l => ⟨l⟩

/-- The list `[x.strip() for x in newsletters.split(',')]` computed by
`parse_newsletters` and by the slug validation in `update_user_task`. -/
def parseSlugList (s : String) : List String :=
  (splitComma s).map fun x => ⟨trimChars x.data⟩

/-- Python `s.lower()` (ASCII case folding, as used on language codes). -/
def pyLower (s : String) : String :=
  ⟨s.data.map Char.toLower⟩

/-- Python `s[:n]` on strings. -/
def pyTake (s : String) (n : Nat) : String :=
  ⟨s.data.take n⟩

/-- Bool test whether `pat` is a prefix of `l`. -/
def isPrefixList : List Char → List Char → Bool
  | [], _ => true
  | _ :: _, [] => false
  | a :: as, b :: bs => a = b && isPrefixList as bs

/-- Bool test whether `pat` occurs inside `l`; models Python
`haystack.find(pat) != -1`. -/
def containsSub (pat : List Char) : List Char → Bool
  | [] => isPrefixList pat []
  | c :: rest => isPrefixList pat (c :: rest) || containsSub pat rest

/-- Python `s.find(pat) != -1` as a Bool on strings. -/
def strContains (s pat : String) : Bool :=
  containsSub pat.data s.data

/-! ## Newsletter catalog

The catalog behind `news/newsletters.py`: each newsletter has a public
slug, a vendor field name on the remote platform, a list of supported
languages, an optional welcome-message id and an active flag.  The
embedding passes the catalog explicitly to every function that consults
it. -/

structure Newsletter where
  slug : String
  vendor : String
  languages : List String
  welcome : String
  active : Bool
deriving DecidableEq, Repr

/-- The list of public slugs (`newsletter_slugs`). -/
def newsletter_slugs (catalog : List Newsletter) : List String :=
  catalog.map (·.slug)

/-- Slug-to-vendor-field lookup (`newsletter_field` / `slug_to_vendor_id`):
the vendor field name of the newsletter with the given slug, if any. -/
def newsletter_field (catalog : List Newsletter) (nl : String) : Option String :=
  (catalog.find? fun e => e.slug == nl).map (·.vendor)

/-- A well-formed catalog: distinct slugs and distinct vendor field
names. -/
abbrev CatalogWF (catalog : List Newsletter) : Prop :=
  (catalog.map (·.slug)).Nodup ∧ (catalog.map (·.vendor)).Nodup

/-! ## Field maps

The dict of fields submitted to the remote platform by one write.  Keys
are structured: the per-newsletter flag and date columns `<VENDOR>_FLG`
and `<VENDOR>_DATE` are `flg v` and `date v`, the fixed columns get one
constructor each. -/

inductive FieldKey where
  | emailAddr
  | permissionStatus
  | modifiedDate
  | createdDate
  | tokenKey
  | emailFormat
  | country
  | lang
  | sourceUrl
  | flg (vendor : String)
  | date (vendor : String)
deriving DecidableEq, Repr

/-- A field map: the association list of fields of one remote write. -/
abbrev FieldMap := List (FieldKey × String)

/-- Python dict assignment `record[k] = v` on a field map: replace the
value if the key is present, otherwise append the pair. -/
def setField : FieldMap → FieldKey → String → FieldMap
  | [], k, v => [(k, v)]
  | (k', v') :: rest, k, v =>
    if k' = k then (k, v) :: rest else (k', v') :: setField rest k v

/-! ## parse_newsletters

`news/tasks.py` — Modelled from the spec: the version of
`parse_newsletters` exercised by `news/tests/test_update_user.py` is not
among the source files; per the spec (§4.2) it marks a newsletter's flag
field 'Y' or 'N' (with a date stamp) only if the snapshot of current
subscriptions shows a different flag value, or no snapshot exists.
`cur = none` models "no snapshot / brand-new subscriber";
`cur = some l` models a snapshot whose set of currently-'Y' newsletters
is `l`. -/

inductive UpdateType where
  | subscribe
  | unsubscribe
  | set
deriving DecidableEq, Repr

/-- Whether a desired 'Y' flag for `nl` must be written: always when no
snapshot exists, otherwise only when the snapshot does not already show
`nl` subscribed. -/
def allowY (cur : Option (List String)) (nl : String) : Bool :=
  match cur with
  | none => true
  | some l => !(l.contains nl)

/-- Whether a desired 'N' flag for `nl` must be written: always when no
snapshot exists, otherwise only when the snapshot shows `nl`
subscribed. -/
def allowN (cur : Option (List String)) (nl : String) : Bool :=
  match cur with
  | none => true
  | some l => l.contains nl

/-- One pass of `parse_newsletters` over a slug list: for each slug with
a known vendor field whose write is allowed, emit the flag entry and the
date entry. -/
def entriesFor (catalog : List Newsletter) (today flag : String)
    (allow : String → Bool) : List String → FieldMap
  | [] => []
  | nl :: rest =>
    match newsletter_field catalog nl with
    | some name =>
      if allow nl then
        (FieldKey.flg name, flag) :: (FieldKey.date name, today) :: entriesFor catalog today flag allow rest
      else entriesFor catalog today flag allow rest
    | none => entriesFor catalog today flag allow rest

/-- The slugs the UNSUBSCRIBE/SET pass runs over: the requested slugs
for UNSUBSCRIBE, the catalog complement of the requested slugs for SET,
nothing for SUBSCRIBE. -/
def unsubTargets (catalog : List Newsletter) (ty : UpdateType) (nls : List String) : List String :=
  match ty with
  | .unsubscribe => nls
  | .set => (newsletter_slugs catalog).filter fun s => !(nls.contains s)
  | .subscribe => []

/-- Modelled from the spec: `parse_newsletters(record, type, newsletters,
cur_newsletters)` of the missing `news/tasks.py`.  Splits the requested
newsletters string on commas, strips each entry, then runs the
subscribe pass (flag 'Y') for SUBSCRIBE/SET over the requested slugs and
the unsubscribe pass (flag 'N') for UNSUBSCRIBE/SET over the targets,
suppressing every entry whose flag already matches the snapshot. -/
def parse_newsletters (catalog : List Newsletter) (today : String)
    (ty : UpdateType) (newsletters : String) (cur : Option (List String)) : FieldMap :=
  let nls := parseSlugList newsletters
  (if ty = .subscribe ∨ ty = .set then entriesFor catalog today "Y" (allowY cur) nls else [])
    ++ entriesFor catalog today "N" (allowN cur) (unsubTargets catalog ty nls)

/-! ## The desired change and the record built for the write -/

/-- The relevant POST data of one change request, as handed to the
update task. -/
structure ChangeData where
  newsletters : String
  lang : Option String
  country : Option String
  format : Option String
  sourceUrl : Option String
  triggerWelcome : Option String
deriving DecidableEq, Repr

/-- Format normalisation: the code maps a supplied format to the
single-letter remote value, 'T' for a text-ish value and 'H'
otherwise. -/
def norm_format (f : String) : String :=
  if f = "T" ∨ pyLower f = "text" then "T" else "H"

/-- Modelled from the spec: the field map the missing `news/tasks.py`
`update_user` builds for the remote write.  Per spec §4.2 it always
includes the email address, the permission status 'I', the token and a
fresh modification timestamp; country, lang and source url only when
present in the change; the email format only when the change supplies
one; and the newsletter flag/date entries computed by
`parse_newsletters`. -/
def build_record (email token now : String) (data : ChangeData)
    (catalog : List Newsletter) (today : String) (ty : UpdateType)
    (cur : Option (List String)) : FieldMap :=
  [(FieldKey.emailAddr, email), (FieldKey.tokenKey, token),
   (FieldKey.permissionStatus, "I"), (FieldKey.modifiedDate, now)]
    ++ (match data.country with | some c => [(FieldKey.country, c)] | none => [])
    ++ (match data.lang with | some l => [(FieldKey.lang, l)] | none => [])
    ++ (match data.sourceUrl with | some u => [(FieldKey.sourceUrl, u)] | none => [])
    ++ (match data.format with | some f => [(FieldKey.emailFormat, norm_format f)] | none => [])
    ++ parse_newsletters catalog today ty data.newsletters cur

/-! ## Remote state and the fetcher (`news/views.py`)

`look_for_user` and `get_user_data` are embedded directly from
`news/views.py`.  A remote subscriber record carries the fixed columns
and an association list of per-newsletter flag columns (keyed by
`<VENDOR>_FLG`); empty strings model empty remote values (Python's
falsy `''`/`None`). -/

structure ETUser where
  email : String
  format : String
  country : String
  lang : String
  token : String
  createdDate : String
  flags : List (String × String)
deriving DecidableEq, Repr

/-- The three remote partitions: master (confirmed) subscribers, the
double-opt-in staging partition, and the confirmation-token
partition. -/
structure ETState where
  master : List ETUser
  optin : List ETUser
  confirmation : List ETUser
deriving DecidableEq, Repr

/-- `ext.get_record(database, email or token, fields, 'EMAIL_ADDRESS_'
if email else 'TOKEN')`: look a record up by email when an email is
given, otherwise by token. -/
def findUser (db : List ETUser) (email token : Option String) : Option ETUser :=
  match email with
  | some e => db.find? fun u => u.email == e
  | none =>
    match token with
    | some t => db.find? fun u => u.token == t
    | none => none

/-- Lookup with default in an association list of string fields. -/
def lookupD (l : List (String × String)) (k d : String) : String :=
  match l.find? fun p => p.1 == k with
  | some p => p.2
  | none => d

/-- The user-data dictionary `look_for_user` builds from a found record:
format and country and lang defaulted like the Python `or` defaults, and
the list of slugs whose `<VENDOR>_FLG` column reads 'Y'. -/
structure UserData where
  email : String
  format : String
  country : String
  lang : String
  token : String
  createdDate : String
  newsletters : List String
deriving DecidableEq, Repr

/-- Builds the `user_data` dictionary of `look_for_user` from a remote
record. -/
def build_user_data (catalog : List Newsletter) (u : ETUser) : UserData :=
  { email := u.email
    format := if u.format = "" then "H" else u.format
    country := u.country
    lang := u.lang
    token := u.token
    createdDate := u.createdDate
    newsletters := (catalog.filter fun e => lookupD u.flags (e.vendor ++ "_FLG") "N" == "Y").map (·.slug) }

/-- The merged snapshot `get_user_data` returns: the user data plus the
three derived booleans. -/
structure Snapshot where
  data : UserData
  confirmed : Bool
  pending : Bool
  master : Bool
deriving DecidableEq, Repr

/-- `get_user_data` of `news/views.py`: look in the master partition
first; if found the snapshot has `confirmed := true`, `pending := false`,
`master := true`.  Otherwise look in the opt-in partition; if absent
there too, return `none` (user unknown remotely).  If found there, a
lightweight lookup in the confirmation partition decides `confirmed`.
The local variable `pending` of the Python function is initialised
`False` and never reassigned, so every returned snapshot carries
`pending := false` — embedded exactly as written. -/
def get_user_data (st : ETState) (catalog : List Newsletter)
    (email token : Option String) : Option Snapshot :=
  match findUser st.master email token with
  | some u => some { data := build_user_data catalog u, confirmed := true, pending := false, master := true }
  | none =>
    match findUser st.optin email token with
    | none => none
    | some u =>
      let confirmed := (findUser st.confirmation email token).isSome
      some { data := build_user_data catalog u, confirmed := confirmed, pending := false, master := false }

/-! ## Language code validation (`news/views.py`) -/

/-- The languages of all newsletters (`newsletter_languages`), passed
explicitly. -/
def newsletter_languages (catalog : List Newsletter) : List String :=
  catalog.foldr (fun e acc => e.languages ++ acc) []

/-- Core of `language_code_is_valid` on an actual string: accept the
empty string or any newsletter language (lower-cased); for a code of
length 2 or 5, also accept a match on the first two characters. -/
def lang_code_ok (langs : List String) (code : String) : Bool :=
  let ls : List String := "" :: langs.map pyLower
  let c := pyLower code
  if ls.contains c then true
  else if c.length = 2 ∨ c.length = 5 then
    ls.any fun l => pyTake c 2 = pyTake l 2
  else false

/-- A Python value as passed to `language_code_is_valid`: a string or
something else (the function type-checks its argument at runtime). -/
inductive PyVal where
  | pstr (s : String)
  | pint (n : Int)
  | pnone
deriving DecidableEq, Repr

/-- `language_code_is_valid` of `news/views.py`: raises `TypeError` on a
non-string, otherwise decides the code against the newsletter
languages. -/
def language_code_is_valid (langs : List String) : PyVal → Except String Bool
  | .pstr code => .ok (lang_code_ok langs code)
  | _ => .error "Language code must be a string"

/-! ## The inbound request helper (`news/views.py` `update_user_task`) -/

/-- A local basket Subscriber record. -/
structure Subscriber where
  email : String
  token : String
deriving DecidableEq, Repr

/-- `lookup_subscriber(email=email)`: return the local record if one
exists; otherwise ask the remote platform (sync-on-read) and adopt the
remote token; otherwise create a fresh record with a new token.  The
second component is the `created` flag. -/
def lookup_subscriber_by_email (localDB : List Subscriber) (st : ETState)
    (catalog : List Newsletter) (freshToken : String) (e : String) :
    Subscriber × Bool :=
  match localDB.find? fun s => s.email == e with
  | some s => (s, false)
  | none =>
    match get_user_data st catalog (some e) none with
    | some ud => ({ email := e, token := ud.data.token }, true)
    | none => ({ email := e, token := freshToken }, true)

/-- The machine-readable error codes `update_user_task` can return. -/
inductive UUTError where
  | invalidNewsletter
  | invalidLanguage
  | usageError
deriving DecidableEq, Repr

/-- The synchronous JSON response of `update_user_task`. -/
inductive UUTResponse where
  | ok (token : String) (created : Bool)
  | error (code : UUTError)
deriving DecidableEq, Repr

/-- One enqueued background task:
`update_user.delay(data, email, token, created, type, optin)`. -/
structure EnqueuedTask where
  data : ChangeData
  email : String
  token : String
  created : Bool
  ty : UpdateType
  optin : Bool
deriving DecidableEq, Repr

/-- The observable outcome of `update_user_task`: the response plus the
list of background tasks enqueued while producing it. -/
structure UUTResult where
  response : UUTResponse
  enqueued : List EnqueuedTask
deriving DecidableEq, Repr

/-- The request data as `update_user_task` reads it: the POST dict may
lack any of the keys it looks for. -/
structure RequestData where
  newsletters : Option String
  lang : Option String
  email : Option String
  rest : ChangeData
deriving DecidableEq, Repr

/-- The slug validation of `update_user_task`: skipped when the
`newsletters` key is absent or its value is empty (falsy), otherwise
every comma-separated, stripped entry must be a catalog slug. -/
def newslettersValid (catalog : List Newsletter) (data : RequestData) : Bool :=
  match data.newsletters with
  | some ns =>
    if ns = "" then true
    else (parseSlugList ns).all fun nl => (newsletter_slugs catalog).contains nl
  | none => true

/-- The language validation of `update_user_task`: only applied when a
`lang` key is present. -/
def langValid (catalog : List Newsletter) (data : RequestData) : Bool :=
  match data.lang with
  | some l => lang_code_ok (newsletter_languages catalog) l
  | none => true

/-- `update_user_task` of `news/views.py`: reject an unknown newsletter
slug, an invalid language code, or a request carrying neither an email
nor a resolved subscriber, all synchronously and without enqueuing
anything; otherwise resolve the subscriber (via the request's
already-resolved subscriber, else by email) and enqueue exactly one
`update_user` task, answering ok with the subscriber's token. -/
def update_user_task (localDB : List Subscriber) (st : ETState)
    (catalog : List Newsletter) (freshToken : String)
    (sub : Option Subscriber) (ty : UpdateType) (data : RequestData)
    (optin : Bool) : UUTResult :=
  if !(newslettersValid catalog data) then
    { response := .error .invalidNewsletter, enqueued := [] }
  else if !(langValid catalog data) then
    { response := .error .invalidLanguage, enqueued := [] }
  else
    match sub with
    | some s =>
      { response := .ok s.token false
        enqueued := [{ data := data.rest, email := s.email, token := s.token,
                       created := false, ty := ty, optin := optin }] }
    | none =>
      match data.email with
      | none => { response := .error .usageError, enqueued := [] }
      | some e =>
        if e = "" then { response := .error .usageError, enqueued := [] }
        else
          let sc := lookup_subscriber_by_email localDB st catalog freshToken e
          { response := .ok sc.1.token sc.2
            enqueued := [{ data := data.rest, email := sc.1.email, token := sc.1.token,
                           created := sc.2, ty := ty, optin := optin }] }

/-! ## The write and trigger phases of `apps/news/tasks.py` `update_user`

Embedded from the source (lines 146-173): the write phase submits the
record with `add_record`; if that raises with a message containing
`CREATED_DATE_`, the record gains a fresh `CREATED_DATE_` field and is
submitted once more, any further failure propagating; any other
rejection propagates at once.  A separate try block then triggers the
welcome send, so a recovered write still reaches it.  The remote
platform's observable behaviour is a script: the outcome of each
successive `add_record` call (`none` = success, `some msg` = exception
with that message) and of the `trigger_send` call. -/

structure ETScript where
  add1 : Option String
  add2 : Option String
  trigger : Option String
deriving DecidableEq, Repr

/-- The trace of remote calls one run of `update_user` makes: every
record submitted through `add_record`, in order, and every
`trigger_send` call as (message id, email, token, format). -/
structure ETTrace where
  adds : List FieldMap
  triggers : List (String × String × String × String)
deriving DecidableEq, Repr

/-- The write phase (lines 146-162): outcome and the records actually
submitted. -/
def write_phase (add1 add2 : Option String) (record : FieldMap)
    (now : String) : Except String FieldMap × List FieldMap :=
  match add1 with
  | none => (.ok record, [record])
  | some msg =>
    if strContains msg "CREATED_DATE_" then
      let record2 := setField record FieldKey.createdDate now
      match add2 with
      | none => (.ok record2, [record, record2])
      | some msg2 => (.error msg2, [record, record2])
    else (.error msg, [record])

/-- The write-then-trigger flow of `update_user` (lines 146-173): run
the write phase; on terminal write failure no trigger is attempted; on
success the welcome (when one was selected) is triggered in its own try
block, its failure surfacing without touching the already-issued
write. -/
def update_user_flow (scr : ETScript) (record : FieldMap) (now : String)
    (welcome : Option String) (email token fmt : String) :
    Except String Unit × ETTrace :=
  match write_phase scr.add1 scr.add2 record now with
  | (.error msg, adds) => (.error msg, { adds := adds, triggers := [] })
  | (.ok _, adds) =>
    match welcome with
    | none => (.ok (), { adds := adds, triggers := [] })
    | some w =>
      let call := (w, email, token, fmt)
      match scr.trigger with
      | none => (.ok (), { adds := adds, triggers := [call] })
      | some msg => (.error msg, { adds := adds, triggers := [call] })

/-! ## The welcome selector

Modelled from the spec (§4.3): the selector of the missing
`news/tasks.py`.  Welcomes are only sent for SUBSCRIBE and only when not
suppressed by the caller and not superseded by the confirmation flow;
a newsletter with a blank welcome id, or one the snapshot already shows
subscribed, is skipped; a static vendor-precedence table then drops the
general member of a pair when the specific member is also selected. -/

structure WelcomeMsg where
  id : String
  email : String
  token : String
  fmt : String
deriving DecidableEq, Repr

/-- Modelled from the spec: the resolved message format — the explicit
format of the change if supplied, else the remote format preference of
the snapshot, else 'H'. -/
def resolved_format (explicit : Option String) (snap : Option Snapshot) : String :=
  match explicit with
  | some f => norm_format f
  | none =>
    match snap with
    | some s => s.data.format
    | none => "H"

/-- Modelled from the spec: the language code used in the message id —
the change's language if supplied, else the snapshot's non-empty
language, else the first two letters of the newsletter's first
supported language. -/
def resolve_lang (dlang : Option String) (snap : Option Snapshot)
    (e : Newsletter) : String :=
  match dlang with
  | some l => l
  | none =>
    match snap with
    | some s => if s.data.lang ≠ "" then s.data.lang else pyTake (e.languages.headD "en") 2
    | none => pyTake (e.languages.headD "en") 2

/-- Message id composition: the language joined to the welcome id, with
`_T` appended for text format. -/
def welcome_message_id (lang wid fmt : String) : String :=
  lang ++ "_" ++ wid ++ (if fmt = "T" then "_T" else "")

/-- The per-newsletter pass of the selector, keeping the vendor id of
each selected message for the precedence filter. -/
def pick_messages (catalog : List Newsletter) (dlang : Option String)
    (snap : Option Snapshot) (fmt email token : String) :
    List String → List (String × WelcomeMsg)
  | [] => []
  | nl :: rest =>
    let tail := pick_messages catalog dlang snap fmt email token rest
    match catalog.find? (fun e => e.slug == nl) with
    | none => tail
    | some e =>
      if !(trimChars e.welcome.data).isEmpty &&
          (match snap with
           | none => true
           | some s => !(s.data.newsletters.contains nl)) then
        (e.vendor,
         { id := welcome_message_id (resolve_lang dlang snap e) e.welcome fmt,
           email := email, token := token, fmt := fmt }) :: tail
      else tail

/-- The vendor-precedence filter: drop a message whose vendor is the
general member of a precedence pair whose specific member is also
selected. -/
def apply_precedence (prec : List (String × String))
    (msgs : List (String × WelcomeMsg)) : List WelcomeMsg :=
  (msgs.filter fun p =>
    !(prec.any fun q => q.2 == p.1 && msgs.any fun r => r.1 == q.1)).map (·.2)

/-- Modelled from the spec: `select_messages` — the welcome messages one
reconciliation triggers.  `needsConfirm` is true when the double-opt-in
confirmation flow supersedes per-newsletter welcomes. -/
def select_messages (catalog : List Newsletter) (prec : List (String × String))
    (ty : UpdateType) (dlang dformat : Option String)
    (triggerWelcome : Option String) (newsletters : String)
    (snap : Option Snapshot) (needsConfirm : Bool) (email token : String) :
    List WelcomeMsg :=
  if ty ≠ .subscribe ∨ (triggerWelcome.getD "Y") ≠ "Y" ∨ needsConfirm then []
  else
    let fmt := resolved_format dformat snap
    apply_precedence prec
      (pick_messages catalog dlang snap fmt email token (parseSlugList newsletters))

/-! ## Concrete instances used to witness the theorems -/

/-- A small two-newsletter catalog. -/
def catalogA : List Newsletter :=
  [{ slug := "a", vendor := "AVEND", languages := ["en-US", "fr"], welcome := "WELCOME1", active := true },
   { slug := "b", vendor := "BVEND", languages := ["en"], welcome := "WELCOME2", active := true }]

/-- A remote record subscribed to newsletter `a`. -/
def userDude : ETUser :=
  { email := "dude@example.com", format := "H", country := "us", lang := "en",
    token := "the-token", createdDate := "2013-01-01", flags := [("AVEND_FLG", "Y")] }

/-- A remote state in which `userDude` sits only in the opt-in
partition. -/
def stOptinOnly : ETState := { master := [], optin := [userDude], confirmation := [] }

/-- A remote state in which `userDude` sits in the opt-in partition and
has a confirmation record, but has not been promoted to master yet. -/
def stOptinConfirmed : ETState :=
  { master := [], optin := [userDude], confirmation := [userDude] }

/-- A local basket subscriber. -/
def subDude : Subscriber := { email := "dude@example.com", token := "basket-token" }

/-- The pass-through POST payload of a small subscribe request. -/
def changeA : ChangeData :=
  { newsletters := "a", lang := some "en", country := some "US", format := some "H",
    sourceUrl := none, triggerWelcome := none }

/-- The same payload without a format key. -/
def changeNoFmt : ChangeData :=
  { newsletters := "a", lang := some "en", country := some "US", format := none,
    sourceUrl := none, triggerWelcome := none }

/-- A valid request as `update_user_task` reads it. -/
def dataGood : RequestData :=
  { newsletters := some "a", lang := some "en", email := none, rest := changeA }

/-- A one-newsletter catalog mirroring the welcome-send tests. -/
def catalogW : List Newsletter :=
  [{ slug := "slug", vendor := "VENDOR1", languages := ["en-US", "fr"], welcome := "Welcome", active := true }]

/-- The message the welcome selector produces for `catalogW` with text
format and no snapshot. -/
def msgW : WelcomeMsg :=
  { id := "en_Welcome_T", email := "dude@example.com", token := "the-token", fmt := "T" }

/-- A small field map for exercising the write phase. -/
def recA : FieldMap :=
  [(FieldKey.emailAddr, "dude@example.com"), (FieldKey.tokenKey, "the-token")]

/-- A platform script whose first write is rejected for the missing
creation date, whose resubmission succeeds, and whose trigger call
fails. -/
def scrRecover : ETScript :=
  { add1 := some "Required field missing: CREATED_DATE_", add2 := none,
    trigger := some "trigger failed" }

/-! ## Helper lemmas -/

/-- A slug with a vendor field is a catalog slug. -/
theorem newsletter_field_mem_slugs {catalog : List Newsletter} {nl f : String}
    (h : newsletter_field catalog nl = some f) : nl ∈ newsletter_slugs catalog := by
  unfold newsletter_field at h
  cases hfind : catalog.find? fun e => e.slug == nl with
  | none => rw [hfind] at h; simp at h
  | some e =>
    have hmem := List.mem_of_find?_eq_some hfind
    have hprop := List.find?_some hfind
    have : e.slug = nl := by simpa using hprop
    subst this
    exact List.mem_map_of_mem _ hmem

/-- In a well-formed catalog, the slug-to-vendor-field map is
injective. -/
theorem newsletter_field_inj {catalog : List Newsletter} (hwf : CatalogWF catalog)
    {x y f : String} (hx : newsletter_field catalog x = some f)
    (hy : newsletter_field catalog y = some f) : x = y := by
  unfold newsletter_field at hx hy
  cases hfx : catalog.find? fun e => e.slug == x with
  | none => rw [hfx] at hx; simp at hx
  | some ex =>
    cases hfy : catalog.find? fun e => e.slug == y with
    | none => rw [hfy] at hy; simp at hy
    | some ey =>
      rw [hfx] at hx; rw [hfy] at hy
      simp at hx hy
      have hmx := List.mem_of_find?_eq_some hfx
      have hmy := List.mem_of_find?_eq_some hfy
      have hsx : ex.slug = x := by simpa using List.find?_some hfx
      have hsy : ey.slug = y := by simpa using List.find?_some hfy
      have : ex = ey := by
        apply List.inj_on_of_nodup_map hwf.2 hmx hmy
        simp [hx, hy]
      rw [← hsx, ← hsy, this]

/-- Membership of a flag entry in one `entriesFor` pass. -/
theorem mem_entriesFor_flg {catalog : List Newsletter} {today fl : String}
    {allow : String → Bool} {slugs : List String} {f v : String} :
    (FieldKey.flg f, v) ∈ entriesFor catalog today fl allow slugs ↔
      v = fl ∧ ∃ nl, nl ∈ slugs ∧ newsletter_field catalog nl = some f ∧ allow nl = true := by
  induction slugs with
  | nil => simp [entriesFor]
  | cons nl rest ih =>
    cases hf : newsletter_field catalog nl with
    | none =>
      simp only [entriesFor, hf, ih]
      constructor
      · rintro ⟨hv, nl', h1, h2, h3⟩
        exact ⟨hv, nl', List.mem_cons_of_mem _ h1, h2, h3⟩
      · rintro ⟨hv, nl', h1, h2, h3⟩
        rcases List.mem_cons.mp h1 with h | h
        · subst h; rw [hf] at h2; exact absurd h2 (by simp)
        · exact ⟨hv, nl', h, h2, h3⟩
    | some name =>
      by_cases ha : allow nl = true
      · simp only [entriesFor, hf, ha, if_pos]
        constructor
        · intro hmem
          rcases List.mem_cons.mp hmem with h | h
          · have h1 : f = name ∧ v = fl := by simpa [Prod.ext_iff] using h
            exact ⟨h1.2, nl, List.mem_cons_self _ _, by rw [hf, h1.1], ha⟩
          rcases List.mem_cons.mp h with h | h
          · exact absurd h (by simp)
          · have := ih.mp h
            exact ⟨this.1, this.2.choose, List.mem_cons_of_mem _ this.2.choose_spec.1,
                   this.2.choose_spec.2.1, this.2.choose_spec.2.2⟩
        · rintro ⟨hv, nl', h1, h2, h3⟩
          rcases List.mem_cons.mp h1 with h | h
          · subst h
            rw [hf] at h2
            have : name = f := by simpa using h2
            subst this; subst hv
            exact List.mem_cons_self _ _
          · exact List.mem_cons_of_mem _ (List.mem_cons_of_mem _ (ih.mpr ⟨hv, nl', h, h2, h3⟩))
      · have ha' : allow nl = false := by simpa using ha
        simp only [entriesFor, hf, ha', if_neg, Bool.false_eq_true, not_false_eq_true, ih]
        constructor
        · rintro ⟨hv, nl', h1, h2, h3⟩
          exact ⟨hv, nl', List.mem_cons_of_mem _ h1, h2, h3⟩
        · rintro ⟨hv, nl', h1, h2, h3⟩
          rcases List.mem_cons.mp h1 with h | h
          · subst h; rw [h3] at ha'; cases ha'
          · exact ⟨hv, nl', h, h2, h3⟩

/-- Full characterisation of one `entriesFor` pass: every entry arises
from an allowed slug with a known vendor field and is its flag entry or
its date entry. -/
theorem mem_entriesFor {catalog : List Newsletter} {today fl : String}
    {allow : String → Bool} {slugs : List String} {p : FieldKey × String} :
    p ∈ entriesFor catalog today fl allow slugs ↔
      ∃ nl, nl ∈ slugs ∧ ∃ name, newsletter_field catalog nl = some name ∧ allow nl = true ∧
        (p = (FieldKey.flg name, fl) ∨ p = (FieldKey.date name, today)) := by
  induction slugs with
  | nil => simp [entriesFor]
  | cons nl rest ih =>
    cases hf : newsletter_field catalog nl with
    | none =>
      simp only [entriesFor, hf, ih]
      constructor
      · rintro ⟨nl', h1, hrest⟩
        exact ⟨nl', List.mem_cons_of_mem _ h1, hrest⟩
      · rintro ⟨nl', h1, hrest⟩
        rcases List.mem_cons.mp h1 with h | h
        · subst h; rw [hf] at hrest; simp at hrest
        · exact ⟨nl', h, hrest⟩
    | some name =>
      by_cases ha : allow nl = true
      · simp only [entriesFor, hf, ha, if_pos, List.mem_cons, ih]
        constructor
        · rintro (h | h | ⟨nl', h1, hrest⟩)
          · exact ⟨nl, Or.inl rfl, name, hf, ha, Or.inl h⟩
          · exact ⟨nl, Or.inl rfl, name, hf, ha, Or.inr h⟩
          · exact ⟨nl', Or.inr h1, hrest⟩
        · rintro ⟨nl', h1, name', h2, h3, h4⟩
          rcases h1 with h | h
          · subst h
            rw [hf] at h2
            have : name = name' := by simpa using h2
            subst this
            rcases h4 with h4 | h4
            · exact Or.inl h4
            · exact Or.inr (Or.inl h4)
          · exact Or.inr (Or.inr ⟨nl', h, name', h2, h3, h4⟩)
      · have ha' : allow nl = false := by simpa using ha
        simp only [entriesFor, hf, ha', Bool.false_eq_true, if_neg, not_false_eq_true, ih]
        constructor
        · rintro ⟨nl', h1, hrest⟩
          exact ⟨nl', List.mem_cons_of_mem _ h1, hrest⟩
        · rintro ⟨nl', h1, name', h2, h3, h4⟩
          rcases List.mem_cons.mp h1 with h | h
          · subst h; rw [h3] at ha'; cases ha'
          · exact ⟨nl', h, name', h2, h3, h4⟩

/-- Membership of a date entry in one `entriesFor` pass. -/
theorem mem_entriesFor_date {catalog : List Newsletter} {today fl : String}
    {allow : String → Bool} {slugs : List String} {f v : String} :
    (FieldKey.date f, v) ∈ entriesFor catalog today fl allow slugs ↔
      v = today ∧ ∃ nl, nl ∈ slugs ∧ newsletter_field catalog nl = some f ∧ allow nl = true := by
  rw [mem_entriesFor]
  constructor
  · rintro ⟨nl, h1, name, h2, h3, h4 | h4⟩
    · simp at h4
    · have hp : f = name ∧ v = today := by simpa [Prod.ext_iff] using h4
      exact ⟨hp.2, nl, h1, by rw [h2, hp.1], h3⟩
  · rintro ⟨hv, nl, h1, h2, h3⟩
    exact ⟨nl, h1, f, h2, h3, Or.inr (by rw [hv])⟩

/-- A flag key occurs among the keys of one `entriesFor` pass exactly
when some allowed slug maps to that vendor field. -/
theorem flg_key_mem_entriesFor {catalog : List Newsletter} {today fl : String}
    {allow : String → Bool} {slugs : List String} {f : String} :
    FieldKey.flg f ∈ (entriesFor catalog today fl allow slugs).map Prod.fst ↔
      ∃ nl, nl ∈ slugs ∧ newsletter_field catalog nl = some f ∧ allow nl = true := by
  rw [List.mem_map]
  constructor
  · rintro ⟨p, hp, hfst⟩
    rcases mem_entriesFor.mp hp with ⟨nl, h1, name, h2, h3, h4 | h4⟩ <;> subst h4
    · have : name = f := by simpa using hfst
      subst this
      exact ⟨nl, h1, h2, h3⟩
    · simp at hfst
  · rintro ⟨nl, h1, h2, h3⟩
    exact ⟨(FieldKey.flg f, fl), mem_entriesFor.mpr ⟨nl, h1, f, h2, h3, Or.inl rfl⟩, rfl⟩

/-- A date key occurs among the keys of one `entriesFor` pass exactly
when some allowed slug maps to that vendor field. -/
theorem date_key_mem_entriesFor {catalog : List Newsletter} {today fl : String}
    {allow : String → Bool} {slugs : List String} {f : String} :
    FieldKey.date f ∈ (entriesFor catalog today fl allow slugs).map Prod.fst ↔
      ∃ nl, nl ∈ slugs ∧ newsletter_field catalog nl = some f ∧ allow nl = true := by
  rw [List.mem_map]
  constructor
  · rintro ⟨p, hp, hfst⟩
    rcases mem_entriesFor.mp hp with ⟨nl, h1, name, h2, h3, h4 | h4⟩ <;> subst h4
    · simp at hfst
    · have : name = f := by simpa using hfst
      subst this
      exact ⟨nl, h1, h2, h3⟩
  · rintro ⟨nl, h1, h2, h3⟩
    exact ⟨(FieldKey.date f, today), mem_entriesFor.mpr ⟨nl, h1, f, h2, h3, Or.inr rfl⟩, rfl⟩

/-- Every key produced by `parse_newsletters` is a flag key or a date
key. -/
theorem parse_newsletters_key_shape {catalog : List Newsletter} {today : String}
    {ty : UpdateType} {ns : String} {cur : Option (List String)} {k : FieldKey}
    (h : k ∈ (parse_newsletters catalog today ty ns cur).map Prod.fst) :
    ∃ g, k = FieldKey.flg g ∨ k = FieldKey.date g := by
  have main : ∀ (fl : String) (allow : String → Bool) (slugs : List String),
      k ∈ (entriesFor catalog today fl allow slugs).map Prod.fst →
      ∃ g, k = FieldKey.flg g ∨ k = FieldKey.date g := by
    intro fl allow slugs hk
    rcases List.mem_map.mp hk with ⟨p, hp, hfst⟩
    rcases mem_entriesFor.mp hp with ⟨nl, _, name, _, _, h4 | h4⟩ <;> subst h4 <;>
      exact ⟨name, by simp [← hfst]⟩
  simp only [parse_newsletters, List.map_append, List.mem_append] at h
  rcases h with h | h
  · by_cases hty : ty = .subscribe ∨ ty = .set
    · rw [if_pos hty] at h
      exact main _ _ _ h
    · rw [if_neg hty] at h
      simp at h
  · exact main _ _ _ h

/-- A flag key occurs in a `parse_newsletters` field map exactly when
the subscribe pass or the unsubscribe pass emits it. -/
theorem flg_key_mem_parse {catalog : List Newsletter} {today : String}
    {ty : UpdateType} {ns : String} {cur : Option (List String)} {f : String} :
    FieldKey.flg f ∈ (parse_newsletters catalog today ty ns cur).map Prod.fst ↔
      ((ty = .subscribe ∨ ty = .set) ∧
        ∃ nl, nl ∈ parseSlugList ns ∧ newsletter_field catalog nl = some f ∧ allowY cur nl = true)
      ∨ (∃ nl, nl ∈ unsubTargets catalog ty (parseSlugList ns) ∧
          newsletter_field catalog nl = some f ∧ allowN cur nl = true) := by
  simp only [parse_newsletters, List.map_append, List.mem_append]
  by_cases hty : ty = .subscribe ∨ ty = .set
  · rw [if_pos hty]
    simp only [flg_key_mem_entriesFor]
    constructor
    · rintro (h | h)
      · exact Or.inl ⟨hty, h⟩
      · exact Or.inr h
    · rintro (⟨_, h⟩ | h)
      · exact Or.inl h
      · exact Or.inr h
  · rw [if_neg hty]
    simp only [List.map_nil, List.not_mem_nil, false_or, flg_key_mem_entriesFor]
    constructor
    · exact Or.inr
    · rintro (⟨h, _⟩ | h)
      · exact absurd h hty
      · exact h

/-- A date key occurs in a `parse_newsletters` field map exactly when
the subscribe pass or the unsubscribe pass emits it. -/
theorem date_key_mem_parse {catalog : List Newsletter} {today : String}
    {ty : UpdateType} {ns : String} {cur : Option (List String)} {f : String} :
    FieldKey.date f ∈ (parse_newsletters catalog today ty ns cur).map Prod.fst ↔
      ((ty = .subscribe ∨ ty = .set) ∧
        ∃ nl, nl ∈ parseSlugList ns ∧ newsletter_field catalog nl = some f ∧ allowY cur nl = true)
      ∨ (∃ nl, nl ∈ unsubTargets catalog ty (parseSlugList ns) ∧
          newsletter_field catalog nl = some f ∧ allowN cur nl = true) := by
  simp only [parse_newsletters, List.map_append, List.mem_append]
  by_cases hty : ty = .subscribe ∨ ty = .set
  · rw [if_pos hty]
    simp only [date_key_mem_entriesFor]
    constructor
    · rintro (h | h)
      · exact Or.inl ⟨hty, h⟩
      · exact Or.inr h
    · rintro (⟨_, h⟩ | h)
      · exact Or.inl h
      · exact Or.inr h
  · rw [if_neg hty]
    simp only [List.map_nil, List.not_mem_nil, false_or, date_key_mem_entriesFor]
    constructor
    · exact Or.inr
    · rintro (⟨h, _⟩ | h)
      · exact absurd h hty
      · exact h

/-- In a well-formed catalog, only the requested slug itself can
contribute its vendor field's entries to a pass over any slug list. -/
theorem pass_witness_eq {catalog : List Newsletter} (hwf : CatalogWF catalog)
    {nl f : String} (hf : newsletter_field catalog nl = some f)
    {nl' : String} (h2 : newsletter_field catalog nl' = some f) : nl' = nl :=
  newsletter_field_inj hwf h2 hf

/-! ## Claim theorems -/

/-- C1: for a SUBSCRIBE or SET change and a newsletter named in it, if
the snapshot already shows that newsletter subscribed ('Y', the desired
value) then the field map contains neither its flag key nor its date
key; when the snapshot shows it unsubscribed, or no snapshot exists
(brand-new subscriber), both keys are present. -/
theorem parse_newsletters_noop_resubscribe
    (catalog : List Newsletter) (hwf : CatalogWF catalog)
    (ty : UpdateType) (hty : ty = .subscribe ∨ ty = .set)
    (today ns nl f : String)
    (hmem : nl ∈ parseSlugList ns)
    (hf : newsletter_field catalog nl = some f) :
    (∀ l : List String, nl ∈ l →
      FieldKey.flg f ∉ (parse_newsletters catalog today ty ns (some l)).map Prod.fst ∧
      FieldKey.date f ∉ (parse_newsletters catalog today ty ns (some l)).map Prod.fst)
    ∧ (∀ l : List String, nl ∉ l →
      FieldKey.flg f ∈ (parse_newsletters catalog today ty ns (some l)).map Prod.fst ∧
      FieldKey.date f ∈ (parse_newsletters catalog today ty ns (some l)).map Prod.fst)
    ∧ (FieldKey.flg f ∈ (parse_newsletters catalog today ty ns none).map Prod.fst ∧
       FieldKey.date f ∈ (parse_newsletters catalog today ty ns none).map Prod.fst) := by
  have habsent : ∀ l : List String, nl ∈ l →
      (((ty = .subscribe ∨ ty = .set) ∧
        ∃ nl', nl' ∈ parseSlugList ns ∧ newsletter_field catalog nl' = some f ∧ allowY (some l) nl' = true)
      ∨ (∃ nl', nl' ∈ unsubTargets catalog ty (parseSlugList ns) ∧
          newsletter_field catalog nl' = some f ∧ allowN (some l) nl' = true)) → False := by
    intro l hl h
    rcases h with ⟨_, nl', h1, h2, h3⟩ | ⟨nl', h1, h2, h3⟩
    · have : nl' = nl := pass_witness_eq hwf hf h2
      subst this
      simp only [allowY] at h3
      rw [Bool.not_eq_eq_eq_not] at h3
      simp at h3
      exact h3 hl
    · have : nl' = nl := pass_witness_eq hwf hf h2
      subst this
      rcases hty with hty | hty <;> subst hty
      · simp [unsubTargets] at h1
      · simp only [unsubTargets, List.mem_filter] at h1
        have := h1.2
        simp at this
        exact this hmem
  refine ⟨fun l hl => ⟨fun h => habsent l hl (flg_key_mem_parse.mp h),
                       fun h => habsent l hl (date_key_mem_parse.mp h)⟩,
          fun l hl => ?_, ?_⟩
  · have hyes : allowY (some l) nl = true := by simp [allowY, hl]
    exact ⟨flg_key_mem_parse.mpr (Or.inl ⟨hty, nl, hmem, hf, hyes⟩),
           date_key_mem_parse.mpr (Or.inl ⟨hty, nl, hmem, hf, hyes⟩)⟩
  · exact ⟨flg_key_mem_parse.mpr (Or.inl ⟨hty, nl, hmem, hf, rfl⟩),
           date_key_mem_parse.mpr (Or.inl ⟨hty, nl, hmem, hf, rfl⟩)⟩

/-- Witness for C1 at a concrete input: resubscribing to `a` (already
'Y' in the snapshot) omits both of its fields. -/
theorem parse_newsletters_noop_resubscribe_witness :
    FieldKey.flg "AVEND" ∉
      (parse_newsletters catalogA "2013-05-01" .subscribe "a, b" (some ["a"])).map Prod.fst ∧
    FieldKey.date "AVEND" ∉
      (parse_newsletters catalogA "2013-05-01" .subscribe "a, b" (some ["a"])).map Prod.fst :=
  (parse_newsletters_noop_resubscribe catalogA (by decide) .subscribe (Or.inl rfl)
    "2013-05-01" "a, b" "a" "AVEND" (by decide) (by decide)).1 ["a"] (by decide)

/-- C5 counterexample: under SET with an empty desired list and a
snapshot subscribed only to `a`, catalog newsletter `b` is not in the
desired list yet receives no 'N' mark at all — the no-op-suppression
rule drops it because its remote flag is already 'N'. -/
theorem parse_newsletters_set_counterexample :
    "b" ∈ newsletter_slugs catalogA ∧
    "b" ∉ parseSlugList "" ∧
    newsletter_field catalogA "b" = some "BVEND" ∧
    (FieldKey.flg "BVEND", "N") ∉ parse_newsletters catalogA "2013-05-01" .set "" (some ["a"]) ∧
    FieldKey.flg "BVEND" ∉
      (parse_newsletters catalogA "2013-05-01" .set "" (some ["a"])).map Prod.fst := by
  decide

/-- C5 amended: under SET a catalog newsletter outside the desired list
gets an 'N' mark and a date stamp exactly when the snapshot shows it
currently subscribed (always, when no snapshot exists); and a SET with
an empty newsletters string produces no 'Y' flag at all. -/
theorem parse_newsletters_set_amended
    (catalog : List Newsletter) (hwf : CatalogWF catalog)
    (hempty : "" ∉ newsletter_slugs catalog)
    (today ns : String) (l : List String) (nl f : String)
    (hslug : nl ∈ newsletter_slugs catalog)
    (hf : newsletter_field catalog nl = some f) :
    (nl ∉ parseSlugList ns →
      ((((FieldKey.flg f, "N") ∈ parse_newsletters catalog today .set ns (some l)) ↔ nl ∈ l)
        ∧ (((FieldKey.date f, today) ∈ parse_newsletters catalog today .set ns (some l)) ↔ nl ∈ l))
      ∧ ((FieldKey.flg f, "N") ∈ parse_newsletters catalog today .set ns none
        ∧ (FieldKey.date f, today) ∈ parse_newsletters catalog today .set ns none))
    ∧ (∀ g : String, (FieldKey.flg g, "Y") ∉ parse_newsletters catalog today .set "" (some l)) := by
  have hsplit : ∀ cur : Option (List String),
      ((FieldKey.flg f, "N") ∈ parse_newsletters catalog today .set ns cur) ↔
        ∃ nl', nl' ∈ unsubTargets catalog .set (parseSlugList ns) ∧
          newsletter_field catalog nl' = some f ∧ allowN cur nl' = true := by
    intro cur
    simp only [parse_newsletters, List.mem_append]
    rw [if_pos (Or.inr trivial)]
    rw [mem_entriesFor_flg, mem_entriesFor_flg]
    constructor
    · rintro (⟨hv, _⟩ | ⟨_, h⟩)
      · exact absurd hv (by decide)
      · exact h
    · intro h
      exact Or.inr ⟨rfl, h⟩
  have hsplitd : ∀ cur : Option (List String),
      ((FieldKey.date f, today) ∈ parse_newsletters catalog today .set ns cur) ↔
        ((∃ nl', nl' ∈ parseSlugList ns ∧
            newsletter_field catalog nl' = some f ∧ allowY cur nl' = true)
          ∨ ∃ nl', nl' ∈ unsubTargets catalog .set (parseSlugList ns) ∧
              newsletter_field catalog nl' = some f ∧ allowN cur nl' = true) := by
    intro cur
    simp only [parse_newsletters, List.mem_append]
    rw [if_pos (Or.inr trivial)]
    rw [mem_entriesFor_date, mem_entriesFor_date]
    constructor
    · rintro (⟨_, h⟩ | ⟨_, h⟩)
      · exact Or.inl h
      · exact Or.inr h
    · rintro (h | h)
      · exact Or.inl ⟨rfl, h⟩
      · exact Or.inr ⟨rfl, h⟩
  constructor
  · intro hnotin
    have htarget : nl ∈ unsubTargets catalog .set (parseSlugList ns) := by
      simp only [unsubTargets, List.mem_filter]
      exact ⟨hslug, by simpa using hnotin⟩
    refine ⟨⟨?_, ?_⟩, ?_, ?_⟩
    · rw [hsplit (some l)]
      constructor
      · rintro ⟨nl', h1, h2, h3⟩
        have : nl' = nl := pass_witness_eq hwf hf h2
        subst this
        simpa [allowN] using h3
      · intro hl
        exact ⟨nl, htarget, hf, by simpa [allowN] using hl⟩
    · rw [hsplitd (some l)]
      constructor
      · rintro (⟨nl', h1, h2, _⟩ | ⟨nl', h1, h2, h3⟩)
        · have heq : nl' = nl := pass_witness_eq hwf hf h2
          subst heq
          exact absurd h1 hnotin
        · have heq : nl' = nl := pass_witness_eq hwf hf h2
          subst heq
          simpa [allowN] using h3
      · intro hl
        exact Or.inr ⟨nl, htarget, hf, by simpa [allowN] using hl⟩
    · rw [hsplit none]
      exact ⟨nl, htarget, hf, rfl⟩
    · rw [hsplitd none]
      exact Or.inr ⟨nl, htarget, hf, rfl⟩
  · intro g hg
    simp only [parse_newsletters, List.mem_append] at hg
    rw [if_pos (Or.inr trivial)] at hg
    rw [mem_entriesFor_flg, mem_entriesFor_flg] at hg
    rcases hg with ⟨_, nl', h1, h2, _⟩ | ⟨hv, _⟩
    · have hnil : parseSlugList "" = [""] := rfl
      rw [hnil] at h1
      have : nl' = "" := by simpa using h1
      subst this
      exact hempty (newsletter_field_mem_slugs h2)
    · exact absurd hv (by decide)

/-- Witness for the amended C5 at a concrete input: SET with an empty
desired list writes the 'N' flag and the date stamp for the currently
subscribed `a`. -/
theorem parse_newsletters_set_amended_witness :
    (FieldKey.flg "AVEND", "N") ∈ parse_newsletters catalogA "2013-05-01" .set "" (some ["a"])
    ∧ (FieldKey.date "AVEND", "2013-05-01") ∈
        parse_newsletters catalogA "2013-05-01" .set "" (some ["a"]) :=
  ⟨(((parse_newsletters_set_amended catalogA (by decide) (by decide) "2013-05-01" ""
      ["a"] "a" "AVEND" (by decide) (by decide)).1 (by decide)).1.1).mpr (by decide),
   (((parse_newsletters_set_amended catalogA (by decide) (by decide) "2013-05-01" ""
      ["a"] "a" "AVEND" (by decide) (by decide)).1 (by decide)).1.2).mpr (by decide)⟩

/-- C2 (code bug): a subscriber present only in the double-opt-in
partition comes back from `get_user_data` with `pending = false` (and
`master = false`, `confirmed = false`), because the Python function
initialises `pending` to `False` and never reassigns it — contradicting
its own docstring, the spec, and the claim, which all say `pending`
must be true in exactly this situation. -/
theorem get_user_data_pending_bug :
    (get_user_data stOptinOnly catalogA (some "dude@example.com") none).map Snapshot.pending
        = some false
    ∧ (get_user_data stOptinOnly catalogA (some "dude@example.com") none).map Snapshot.master
        = some false
    ∧ (get_user_data stOptinOnly catalogA (some "dude@example.com") none).map Snapshot.confirmed
        = some false := by
  refine ⟨rfl, rfl, rfl⟩

/-- C3: a subscriber absent from the master partition but found in the
opt-in partition with a confirmation record is reported
`confirmed = true`, `master = false`; a subscriber absent from both the
master and opt-in partitions yields no snapshot at all. -/
theorem get_user_data_confirmation_lag
    (st : ETState) (catalog : List Newsletter) (email token : Option String)
    (hmaster : findUser st.master email token = none) :
    (∀ u, findUser st.optin email token = some u →
      (findUser st.confirmation email token).isSome = true →
      get_user_data st catalog email token =
        some { data := build_user_data catalog u, confirmed := true,
               pending := false, master := false })
    ∧ (findUser st.optin email token = none →
        get_user_data st catalog email token = none) := by
  constructor
  · intro u hoptin hconf
    unfold get_user_data
    rw [hmaster, hoptin, hconf]
  · intro hoptin
    unfold get_user_data
    rw [hmaster, hoptin]

/-- Witness for C3: `userDude` sits in the opt-in and confirmation
partitions only, and the snapshot reports the lag-reconciled state. -/
theorem get_user_data_confirmation_lag_witness :
    get_user_data stOptinConfirmed catalogA (some "dude@example.com") none =
      some { data := build_user_data catalogA userDude, confirmed := true,
             pending := false, master := false } :=
  (get_user_data_confirmation_lag stOptinConfirmed catalogA
    (some "dude@example.com") none rfl).1 userDude rfl rfl

/-- C4: a write rejected with a message containing `CREATED_DATE_` is
resubmitted exactly once, with the creation-date field set in the field
map; a failure of the resubmission surfaces as the terminal outcome
with no third attempt; a rejection whose message does not mention the
field is never resubmitted. -/
theorem write_phase_created_date_recovery
    (add1 add2 : Option String) (record : FieldMap) (now msg : String)
    (h1 : add1 = some msg) :
    (strContains msg "CREATED_DATE_" = true →
      (write_phase add1 add2 record now).2 = [record, setField record FieldKey.createdDate now]
      ∧ (add2 = none →
          (write_phase add1 add2 record now).1 = .ok (setField record FieldKey.createdDate now))
      ∧ (∀ msg2, add2 = some msg2 → (write_phase add1 add2 record now).1 = .error msg2))
    ∧ (strContains msg "CREATED_DATE_" = false →
      (write_phase add1 add2 record now).2 = [record]
      ∧ (write_phase add1 add2 record now).1 = .error msg) := by
  subst h1
  constructor
  · intro hc
    refine ⟨?_, ?_, ?_⟩
    · cases add2 <;> simp [write_phase, hc]
    · intro h2; subst h2; simp [write_phase, hc]
    · intro msg2 h2; subst h2; simp [write_phase, hc]
  · intro hc
    constructor <;> simp [write_phase, hc]

/-- Witness for C4: the recovery and non-recovery paths at concrete
messages. -/
theorem write_phase_created_date_recovery_witness :
    (write_phase (some "Required field missing: CREATED_DATE_") none recA "now1").2
        = [recA, setField recA FieldKey.createdDate "now1"]
    ∧ (write_phase (some "boom") none recA "now1").2 = [recA] :=
  ⟨((write_phase_created_date_recovery (some "Required field missing: CREATED_DATE_")
      none recA "now1" "Required field missing: CREATED_DATE_" rfl).1 (by decide)).1,
   ((write_phase_created_date_recovery (some "boom")
      none recA "now1" "boom" rfl).2 (by decide)).1⟩

/-- C9: whenever the write phase succeeds — directly or through the
creation-date recovery — the trigger step is still reached: a selected
welcome produces exactly one `trigger_send` call, and the sequence of
`add_record` submissions is the same whatever the trigger call's
outcome (the write is neither undone nor re-attempted). -/
theorem update_user_flow_trigger_after_write
    (scr : ETScript) (record : FieldMap) (now : String)
    (welcome : Option String) (email token fmt : String) (r : FieldMap)
    (hok : (write_phase scr.add1 scr.add2 record now).1 = .ok r) :
    (∀ w, welcome = some w →
      (update_user_flow scr record now welcome email token fmt).2.triggers
        = [(w, email, token, fmt)])
    ∧ (∀ tr : Option String,
      (update_user_flow { scr with trigger := tr } record now welcome email token fmt).2.adds
        = (update_user_flow scr record now welcome email token fmt).2.adds)
    ∧ (update_user_flow scr record now welcome email token fmt).2.adds
        = (write_phase scr.add1 scr.add2 record now).2 := by
  have hwp : write_phase scr.add1 scr.add2 record now
      = (.ok r, (write_phase scr.add1 scr.add2 record now).2) := by
    cases hv : write_phase scr.add1 scr.add2 record now with
    | mk a b => rw [hv] at hok; simp at hok; simp [hok]
  refine ⟨?_, ?_, ?_⟩
  · intro w hw
    subst hw
    unfold update_user_flow
    rw [hwp]
    cases scr.trigger <;> rfl
  · intro tr
    unfold update_user_flow
    simp only
    rw [hwp]
    cases tr <;> cases htr : scr.trigger <;> cases welcome <;> rfl
  · unfold update_user_flow
    rw [hwp]
    cases scr.trigger <;> cases welcome <;> rfl

/-- Witness for C9: a write that succeeds through the recovery path
still issues the welcome trigger, and a failing trigger leaves the
submitted records untouched. -/
theorem update_user_flow_trigger_after_write_witness :
    (update_user_flow scrRecover recA "now1" (some "39")
        "dude@example.com" "the-token" "H").2.triggers
      = [("39", "dude@example.com", "the-token", "H")]
    ∧ (update_user_flow { scrRecover with trigger := none } recA "now1" (some "39")
        "dude@example.com" "the-token" "H").2.adds
      = (update_user_flow scrRecover recA "now1" (some "39")
        "dude@example.com" "the-token" "H").2.adds := by
  have h := update_user_flow_trigger_after_write scrRecover recA "now1" (some "39")
    "dude@example.com" "the-token" "H" (setField recA FieldKey.createdDate "now1") rfl
  exact ⟨h.1 "39" rfl, h.2.1 none⟩

/-- C6: `update_user_task` rejects a request naming an unknown
newsletter slug, or carrying an invalid language code, or carrying
neither an email nor a resolved subscriber, synchronously and with an
empty task queue; any other request enqueues exactly one `update_user`
task and answers ok with the subscriber's token. -/
theorem update_user_task_validation
    (localDB : List Subscriber) (st : ETState) (catalog : List Newsletter)
    (freshToken : String) (sub : Option Subscriber) (ty : UpdateType)
    (data : RequestData) (optin : Bool) :
    (newslettersValid catalog data = false ↔
      ∃ ns, data.newsletters = some ns ∧ ns ≠ "" ∧
        ∃ nl, nl ∈ parseSlugList ns ∧ nl ∉ newsletter_slugs catalog)
    ∧ (langValid catalog data = false ↔
        ∃ lg, data.lang = some lg ∧ lang_code_ok (newsletter_languages catalog) lg = false)
    ∧ (newslettersValid catalog data = false →
        update_user_task localDB st catalog freshToken sub ty data optin
          = { response := .error .invalidNewsletter, enqueued := [] })
    ∧ (newslettersValid catalog data = true → langValid catalog data = false →
        update_user_task localDB st catalog freshToken sub ty data optin
          = { response := .error .invalidLanguage, enqueued := [] })
    ∧ (newslettersValid catalog data = true → langValid catalog data = true →
        sub = none → data.email = none →
        update_user_task localDB st catalog freshToken sub ty data optin
          = { response := .error .usageError, enqueued := [] })
    ∧ (∀ s, newslettersValid catalog data = true → langValid catalog data = true →
        sub = some s →
        update_user_task localDB st catalog freshToken sub ty data optin
          = { response := .ok s.token false,
              enqueued := [{ data := data.rest, email := s.email, token := s.token,
                             created := false, ty := ty, optin := optin }] })
    ∧ (∀ e, newslettersValid catalog data = true → langValid catalog data = true →
        sub = none → data.email = some e → e ≠ "" →
        (update_user_task localDB st catalog freshToken sub ty data optin).response
          = .ok (lookup_subscriber_by_email localDB st catalog freshToken e).1.token
                (lookup_subscriber_by_email localDB st catalog freshToken e).2
        ∧ (update_user_task localDB st catalog freshToken sub ty data optin).enqueued.length
          = 1
        ∧ ∀ t ∈ (update_user_task localDB st catalog freshToken sub ty data optin).enqueued,
            t.token = (lookup_subscriber_by_email localDB st catalog freshToken e).1.token
            ∧ t.ty = ty ∧ t.optin = optin) := by
  refine ⟨?_, ?_, ?_, ?_, ?_, ?_, ?_⟩
  · cases hns : data.newsletters with
    | none => simp [newslettersValid, hns]
    | some ns =>
      by_cases hempty : ns = ""
      · subst hempty; simp [newslettersValid, hns]
      · simp only [newslettersValid, hns]
        rw [if_neg hempty]
        rw [← Bool.not_eq_true, List.all_eq_true]
        constructor
        · intro h
          push_neg at h
          rcases h with ⟨nl, h1, h2⟩
          exact ⟨ns, rfl, hempty, nl, h1, by simpa using h2⟩
        · rintro ⟨ns', hns', _, nl, h1, h2⟩
          obtain rfl : ns = ns' := by simpa using hns'
          intro hall
          exact h2 (by simpa using hall nl h1)
  · cases hlg : data.lang with
    | none => simp [langValid, hlg]
    | some lg =>
      simp only [langValid, hlg]
      constructor
      · intro h
        exact ⟨lg, rfl, h⟩
      · rintro ⟨lg', hlg', h⟩
        obtain rfl : lg = lg' := by simpa using hlg'
        exact h
  · intro h
    simp [update_user_task, h]
  · intro h1 h2
    simp [update_user_task, h1, h2]
  · intro h1 h2 hsub hemail
    subst hsub
    simp [update_user_task, h1, h2, hemail]
  · intro s h1 h2 hsub
    subst hsub
    simp [update_user_task, h1, h2]
  · intro e h1 h2 hsub hemail he
    subst hsub
    refine ⟨?_, ?_, ?_⟩ <;> simp [update_user_task, h1, h2, hemail, he]

/-- Witness for C6 at concrete inputs: a request with an unknown slug
is rejected with nothing enqueued, and a valid request from a resolved
subscriber is acknowledged with the subscriber's token. -/
theorem update_user_task_validation_witness :
    update_user_task [] stOptinOnly catalogA "fresh"
        (some subDude) .subscribe
        { newsletters := some "bogus", lang := none, email := none, rest := changeA } true
      = { response := .error .invalidNewsletter, enqueued := [] }
    ∧ update_user_task [] stOptinOnly catalogA "fresh"
        (some subDude) .subscribe dataGood true
      = { response := .ok subDude.token false,
          enqueued := [{ data := dataGood.rest, email := subDude.email,
                         token := subDude.token, created := false,
                         ty := .subscribe, optin := true }] } :=
  ⟨(update_user_task_validation [] stOptinOnly catalogA "fresh" (some subDude) .subscribe
      { newsletters := some "bogus", lang := none, email := none, rest := changeA }
      true).2.2.1 (by decide),
   (update_user_task_validation [] stOptinOnly catalogA "fresh" (some subDude) .subscribe
      dataGood true).2.2.2.2.2.1 subDude (by decide) (by decide) rfl⟩

/-- C7: the record built for the remote write carries an email-format
field exactly when the change supplies a format; with no format in the
change the remote format is left untouched rather than defaulted. -/
theorem build_record_format_frame
    (email token now : String) (data : ChangeData) (catalog : List Newsletter)
    (today : String) (ty : UpdateType) (cur : Option (List String)) :
    (data.format = none →
      FieldKey.emailFormat ∉
        (build_record email token now data catalog today ty cur).map Prod.fst)
    ∧ (∀ f, data.format = some f →
      (FieldKey.emailFormat, norm_format f) ∈
        build_record email token now data catalog today ty cur) := by
  constructor
  · intro hfmt hmem
    rw [List.mem_map] at hmem
    obtain ⟨p, hp, hfst⟩ := hmem
    simp only [build_record, hfmt, List.mem_append] at hp
    rcases hp with ((((h | h) | h) | h) | h) | h
    · simp only [List.mem_cons, List.not_mem_nil, or_false] at h
      rcases h with rfl | rfl | rfl | rfl <;> simp at hfst
    · cases hc : data.country with
      | none => rw [hc] at h; simp at h
      | some c => rw [hc] at h; simp at h; subst h; simp at hfst
    · cases hc : data.lang with
      | none => rw [hc] at h; simp at h
      | some c => rw [hc] at h; simp at h; subst h; simp at hfst
    · cases hc : data.sourceUrl with
      | none => rw [hc] at h; simp at h
      | some c => rw [hc] at h; simp at h; subst h; simp at hfst
    · simp at h
    · have hk := parse_newsletters_key_shape (List.mem_map_of_mem Prod.fst h)
      rw [hfst] at hk
      rcases hk with ⟨g, hg | hg⟩ <;> simp at hg
  · intro f hfmt
    simp [build_record, hfmt]

/-- Witness for C7: a concrete change without a format key yields a
record without the email-format field. -/
theorem build_record_format_frame_witness :
    FieldKey.emailFormat ∉
      (build_record "dude@example.com" "the-token" "now1" changeNoFmt catalogA
        "2013-05-01" .subscribe none).map Prod.fst :=
  (build_record_format_frame "dude@example.com" "the-token" "now1" changeNoFmt
    catalogA "2013-05-01" .subscribe none).1 rfl

/-- Every entry the per-newsletter pass of the welcome selector emits
comes from a catalog newsletter among the given slugs and carries that
newsletter's composed message id and the resolved format. -/
theorem mem_pick_messages {catalog : List Newsletter} {dlang : Option String}
    {snap : Option Snapshot} {fmt email token : String} {slugs : List String}
    {p : String × WelcomeMsg}
    (hp : p ∈ pick_messages catalog dlang snap fmt email token slugs) :
    ∃ e, e ∈ catalog ∧ e.slug ∈ slugs ∧ p.1 = e.vendor ∧
      p.2 = { id := welcome_message_id (resolve_lang dlang snap e) e.welcome fmt,
              email := email, token := token, fmt := fmt } := by
  induction slugs with
  | nil => simp [pick_messages] at hp
  | cons nl rest ih =>
    simp only [pick_messages] at hp
    cases hfind : catalog.find? (fun e => e.slug == nl) with
    | none =>
      rw [hfind] at hp
      obtain ⟨e, h1, h2, h3⟩ := ih hp
      exact ⟨e, h1, List.mem_cons_of_mem _ h2, h3⟩
    | some e =>
      rw [hfind] at hp
      have hmem := List.mem_of_find?_eq_some hfind
      have hslug : e.slug = nl := by simpa using List.find?_some hfind
      dsimp only at hp
      split at hp
      · rcases List.mem_cons.mp hp with h | h
        · subst h
          exact ⟨e, hmem, by rw [hslug]; exact List.mem_cons_self _ _, rfl, rfl⟩
        · obtain ⟨e', h1, h2, h3⟩ := ih h
          exact ⟨e', h1, List.mem_cons_of_mem _ h2, h3⟩
      · obtain ⟨e', h1, h2, h3⟩ := ih hp
        exact ⟨e', h1, List.mem_cons_of_mem _ h2, h3⟩

/-- C8: every welcome message the selector produces is addressed with
the resolved format — the explicit format of the change if supplied,
else the snapshot's remote preference, else 'H' — and its id is the
resolved language joined to the newsletter's welcome id, with `_T`
appended exactly when the resolved format is text. -/
theorem select_messages_composition
    (catalog : List Newsletter) (prec : List (String × String)) (ty : UpdateType)
    (dlang dformat triggerWelcome : Option String) (ns : String)
    (snap : Option Snapshot) (needsConfirm : Bool) (email token : String)
    (m : WelcomeMsg)
    (hm : m ∈ select_messages catalog prec ty dlang dformat triggerWelcome ns
            snap needsConfirm email token) :
    m.fmt = resolved_format dformat snap
    ∧ m.email = email ∧ m.token = token
    ∧ (∃ e, e ∈ catalog ∧ e.slug ∈ parseSlugList ns ∧
        m.id = resolve_lang dlang snap e ++ "_" ++ e.welcome ++
               (if resolved_format dformat snap = "T" then "_T" else ""))
    ∧ (∀ f, dformat = some f → m.fmt = norm_format f)
    ∧ (dformat = none → ∀ s, snap = some s → m.fmt = s.data.format)
    ∧ (dformat = none → snap = none → m.fmt = "H") := by
  unfold select_messages at hm
  by_cases hgate : ty ≠ .subscribe ∨ (triggerWelcome.getD "Y") ≠ "Y" ∨ needsConfirm = true
  · rw [if_pos hgate] at hm
    simp at hm
  · rw [if_neg hgate] at hm
    simp only [apply_precedence, List.mem_map] at hm
    obtain ⟨p, hpf, hpm⟩ := hm
    have hp := List.mem_of_mem_filter hpf
    obtain ⟨e, h1, h2, hv, hmsg⟩ := mem_pick_messages hp
    subst hpm
    rw [hmsg]
    refine ⟨rfl, rfl, rfl, ⟨e, h1, h2, rfl⟩, ?_, ?_, ?_⟩
    · intro f hf
      simp [resolved_format, hf]
    · intro hf s hs
      simp [resolved_format, hf, hs]
    · intro hf hs
      simp [resolved_format, hf, hs]

/-- Witness for C8: the text-format welcome for a brand-new subscriber
to `catalogW` is `en_Welcome_T` in format 'T'. -/
theorem select_messages_composition_witness :
    msgW ∈ select_messages catalogW [] .subscribe none (some "T") none "slug"
        none false "dude@example.com" "the-token"
    ∧ msgW.fmt = norm_format "T" :=
  ⟨by decide,
   (select_messages_composition catalogW [] .subscribe none (some "T") none "slug"
     none false "dude@example.com" "the-token" msgW (by decide)).2.2.2.2.1 "T" rfl⟩

/-- Strings with equal character data are equal. -/
theorem string_data_inj {s t : String} (h : s.data = t.data) : s = t := by
  cases s; cases t; exact congrArg String.mk h

/-- Case folding preserves the length of a string. -/
theorem pyLower_length (s : String) : (pyLower s).length = s.length := by
  cases s with
  | mk d => simp [pyLower, String.length]

/-- Case folding sends only the empty string to the empty string. -/
theorem pyLower_eq_empty_iff (s : String) : pyLower s = "" ↔ s = "" := by
  constructor
  · intro h
    have h2 : s.data.map Char.toLower = [] := congrArg String.data h
    rw [List.map_eq_nil_iff] at h2
    cases s
    exact congrArg String.mk h2
  · rintro rfl
    rfl

/-- Characterisation of `lang_code_ok`: the code is accepted exactly
when it is empty, or case-insensitively equal to a newsletter language,
or of length 2 or 5 with its first two (lower-cased) characters
matching those of a newsletter language. -/
theorem lang_code_ok_spec (langs : List String) (c : String) :
    lang_code_ok langs c = true ↔
      c = "" ∨ (∃ l, l ∈ langs ∧ pyLower c = pyLower l) ∨
        ((c.length = 2 ∨ c.length = 5) ∧
          ∃ l, l ∈ langs ∧ pyTake (pyLower c) 2 = pyTake (pyLower l) 2) := by
  unfold lang_code_ok
  by_cases h1 : pyLower c ∈ ("" :: langs.map pyLower)
  · rw [if_pos (by simpa using h1)]
    simp only [true_iff]
    rcases List.mem_cons.mp h1 with h | h
    · exact Or.inl ((pyLower_eq_empty_iff c).mp h)
    · obtain ⟨l, hl, hlow⟩ := List.mem_map.mp h
      exact Or.inr (Or.inl ⟨l, hl, hlow.symm⟩)
  · rw [if_neg (by simpa using h1)]
    have hne : ¬(c = "" ∨ ∃ l, l ∈ langs ∧ pyLower c = pyLower l) := by
      rintro (rfl | ⟨l, hl, hlow⟩)
      · exact h1 (List.mem_cons_self _ _)
      · exact h1 (List.mem_cons_of_mem _ (hlow ▸ List.mem_map_of_mem pyLower hl))
    by_cases h2 : (pyLower c).length = 2 ∨ (pyLower c).length = 5
    · rw [if_pos h2]
      rw [pyLower_length] at h2
      constructor
      · intro h
        rcases List.any_eq_true.mp h with ⟨x, hx, htake⟩
        rw [decide_eq_true_eq] at htake
        rcases List.mem_cons.mp hx with hx | hx
        · subst hx
          have h3 : (pyLower c).data.take 2 = [] := congrArg String.data htake
          rcases List.take_eq_nil_iff.mp h3 with h4 | h4
          · cases h4
          · have h5 : pyLower c = "" := string_data_inj h4
            have h6 : c = "" := (pyLower_eq_empty_iff c).mp h5
            subst h6
            exact absurd h2 (by decide)
        · obtain ⟨l, hl, hlow⟩ := List.mem_map.mp hx
          exact Or.inr (Or.inr ⟨h2, l, hl, hlow ▸ htake⟩)
      · intro h
        rcases h with h | ⟨l, hl, hlow⟩ | ⟨_, l, hl, htake⟩
        · subst h; exact absurd h2 (by decide)
        · exact absurd (Or.inr ⟨l, hl, hlow⟩) hne
        · exact List.any_eq_true.mpr
            ⟨pyLower l, List.mem_cons_of_mem _ (List.mem_map_of_mem pyLower hl),
             decide_eq_true htake⟩
    · rw [if_neg h2]
      rw [pyLower_length] at h2
      constructor
      · intro h
        exact absurd h (by decide)
      · rintro (h | h | ⟨hlen, _⟩)
        · exact absurd (Or.inl h) hne
        · exact absurd (Or.inr h) hne
        · exact absurd hlen h2

/-- C10: `language_code_is_valid` accepts the empty string, any code
case-insensitively equal to a newsletter language, and any code of
length 2 or 5 whose first two characters match those of a newsletter
language case-insensitively; it rejects every other string, and raises
a `TypeError` on any non-string argument. -/
theorem language_code_is_valid_characterization (langs : List String) :
    (language_code_is_valid langs (.pstr "") = .ok true)
    ∧ (∀ c l, l ∈ langs → pyLower c = pyLower l →
        language_code_is_valid langs (.pstr c) = .ok true)
    ∧ (∀ c, (c.length = 2 ∨ c.length = 5) →
        (∃ l, l ∈ langs ∧ pyTake (pyLower c) 2 = pyTake (pyLower l) 2) →
        language_code_is_valid langs (.pstr c) = .ok true)
    ∧ (∀ c, c ≠ "" → (∀ l, l ∈ langs → pyLower c ≠ pyLower l) →
        (¬(c.length = 2 ∨ c.length = 5) ∨
          ∀ l, l ∈ langs → pyTake (pyLower c) 2 ≠ pyTake (pyLower l) 2) →
        language_code_is_valid langs (.pstr c) = .ok false)
    ∧ (∀ n : Int, language_code_is_valid langs (.pint n)
        = .error "Language code must be a string")
    ∧ (language_code_is_valid langs .pnone
        = .error "Language code must be a string") := by
  have hok : ∀ c, language_code_is_valid langs (.pstr c) = .ok (lang_code_ok langs c) :=
    fun c => rfl
  refine ⟨?_, ?_, ?_, ?_, fun n => rfl, rfl⟩
  · rw [hok, (lang_code_ok_spec langs "").mpr (Or.inl rfl)]
  · intro c l hl hlow
    rw [hok, (lang_code_ok_spec langs c).mpr (Or.inr (Or.inl ⟨l, hl, hlow⟩))]
  · intro c hlen hex
    rw [hok, (lang_code_ok_spec langs c).mpr (Or.inr (Or.inr ⟨hlen, hex⟩))]
  · intro c hne hnl hdisj
    have : lang_code_ok langs c = false := by
      rw [← Bool.not_eq_true, lang_code_ok_spec]
      rintro (h | ⟨l, hl, hlow⟩ | ⟨hlen, l, hl, htake⟩)
      · exact hne h
      · exact hnl l hl hlow
      · rcases hdisj with h | h
        · exact h hlen
        · exact h l hl htake
    rw [hok, this]

/-- Witness for C10: `"EN"` is accepted against the language list
`["en-US"]` through the two-letter prefix rule. -/
theorem language_code_is_valid_characterization_witness :
    language_code_is_valid ["en-US"] (.pstr "EN") = .ok true :=
  (language_code_is_valid_characterization ["en-US"]).2.2.1 "EN"
    (Or.inl (by decide)) ⟨"en-US", by decide, by decide⟩
